import Mathlib

/-!
Shallow embedding of `src/проект/MP3 Player/player.py` (PyQt6 MP3 player).

The player object is modelled as a pure record `PlayerState`; each Python
method becomes a state transformer.  The platform media service
(`QMediaPlayer` / `QAudioOutput`) is modelled by the fields `source`,
`playbackState`, `position`, `duration`, `volume`: commands issued to the
service (`setSource`, `play`, `pause`, `stop`, `setPosition`, `setVolume`)
take effect immediately on those fields, as the spec's §4.2 service
contract assumes.  The playlist `QListWidget` is modelled by
`playlistItems` (the item texts) and `playlistRow` (the current row, `-1`
when there is no current item).  File I/O is passed in explicitly: file
contents arrive as arguments (`Option` = the read may fail or the file may
be missing) and on-disk existence checks are a predicate
`String → Bool`.
-/

/-- Track model (`Track` dataclass): `path` and a display `title`. -/
structure Track where
  path : String
  title : String
deriving DecidableEq, Repr

/-- Python `str.strip()`: drop whitespace from both ends.  (Python also
strips `\f`, `\v` and Unicode whitespace; no path in this development
contains those.) -/
def pyStrip (s : String) : String :=
  String.mk (((s.toList.dropWhile Char.isWhitespace).reverse.dropWhile Char.isWhitespace).reverse)

/-- Helper for `pySplit`: walk the characters, cutting at the separator. -/
def pySplitAux (sep : Char) : List Char → List Char → List String
  | [], acc => [String.mk acc.reverse]
  | c :: cs, acc =>
      if c = sep then String.mk acc.reverse :: pySplitAux sep cs []
      else pySplitAux sep cs (c :: acc)

/-- Python `str.split(sep)` for a one-character separator (the program
only ever splits on `"|"` and, for path components, `"/"`). -/
def pySplit (s : String) (sep : Char) : List String :=
  pySplitAux sep s.toList []

/-- Digit-string value for `pyInt`; `none` when a non-digit appears. -/
def digitsValAux : List Char → Nat → Option Nat
  | [], acc => some acc
  | c :: cs, acc =>
      if c.isDigit then digitsValAux cs (acc * 10 + (c.toNat - '0'.toNat)) else none

/-- Python `int(s)`: optional surrounding whitespace, optional sign, then
at least one decimal digit; `none` models a raised `ValueError`.  (Python
additionally allows grouping underscores and non-ASCII digits; the
state file this parses is written by `closeEvent` as plain digits.) -/
def pyInt (s : String) : Option Int :=
  let cs := ((s.toList.dropWhile Char.isWhitespace).reverse.dropWhile Char.isWhitespace).reverse
  match cs with
  | '-' :: rest =>
      match rest with
      | [] => none
      | _ => (digitsValAux rest 0).map (fun n => -(n : Int))
  | '+' :: rest =>
      match rest with
      | [] => none
      | _ => (digitsValAux rest 0).map (fun n => (n : Int))
  | [] => none
  | rest => (digitsValAux rest 0).map (fun n => (n : Int))

/-- Python `pathlib.Path(p).stem`: final path component without its last
suffix.  The suffix is `name[i:]` for `i` the position of the last `.` in
the final component, provided `0 < i < len(name) - 1`. -/
def pathStem (p : String) : String :=
  let comps := (pySplit p '/').filter (fun c => c ≠ "")
  let name := comps.getLastD ""
  let cs := name.toList
  if cs.contains '.' then
    let i := cs.length - 1 - (cs.reverse.indexOf '.')
    if 0 < i ∧ i < cs.length - 1 then String.mk (cs.take i) else name
  else name

/-- `Track.from_path`: title is the filename stem. -/
def Track.from_path (p : String) : Track :=
  { path := p, title := pathStem p }

/-- `QMediaPlayer.playbackState()`: Stopped also covers "no source". -/
inductive PlaybackState where
  | StoppedState
  | PlayingState
  | PausedState
deriving DecidableEq, Repr

/-- The whole mutable state of the `Mp3Player` window together with the
mirrored media-service state. -/
structure PlayerState where
  tracks : List Track
  current_index : Option Int
  seeking : Bool
  playlistItems : List String
  playlistRow : Int
  source : Option String
  playbackState : PlaybackState
  position : Int
  duration : Int
  volume : ℚ
  btnPauseText : String
  miniLabel : String
  statusMsg : Option String
deriving DecidableEq, Repr

/-- State right after `_setup_player` / `_setup_ui` / `_connect_signals`,
before the session-restore block of `__init__` runs: empty registry, no
current track, volume 0.8, pause button labelled "Pause". -/
def initState : PlayerState :=
  { tracks := []
    current_index := none
    seeking := false
    playlistItems := []
    playlistRow := -1
    source := none
    playbackState := PlaybackState.StoppedState
    position := 0
    duration := 0
    volume := mkRat 8 10
    btnPauseText := "Pause"
    miniLabel := "No track"
    statusMsg := none }

/-- Python list read `l[i]` (as in `self.tracks[index]`): non-negative
indices from the front, negative indices from the back, `none` when the
access raises `IndexError`. -/
def pythonGet {α : Type} (l : List α) (i : Int) : Option α :=
  if 0 ≤ i then l[i.toNat]?
  else if 0 ≤ i + l.length then l[(i + l.length).toNat]?
  else none

/-- `QListWidget.setCurrentRow(r)`: an in-range row becomes current, an
out-of-range row leaves the widget with no current item (row `-1`). -/
def setCurrentRow (st : PlayerState) (r : Int) : PlayerState :=
  { st with playlistRow := if 0 ≤ r ∧ r < (st.playlistItems.length : Int) then r else -1 }

/-- `Mp3Player._play_index`: look up `self.tracks[index]` (a caught
`IndexError` makes the whole call a no-op), bind the track's path as the
media source, start playback, set `current_index`, refresh the mini-player
label (`_update_mini_label` re-reads `tracks[current_index]`, the same
element) and show the status message. -/
def play_index (st : PlayerState) (index : Int) : PlayerState :=
  match pythonGet st.tracks index with
  | none => st
  | some track =>
      { st with
        source := some track.path
        playbackState := PlaybackState.PlayingState
        current_index := some index
        miniLabel := track.title
        statusMsg := some ("Воспроизведение: " ++ track.title) }

/-- `Mp3Player.play_next`: no-op when `current_index` is `None`; otherwise
advance to `current_index + 1` when that is below the registry length,
else `player.stop()` (stop resets the playback position to 0) and clear
`current_index`. -/
def play_next (st : PlayerState) : PlayerState :=
  match st.current_index with
  | none => st
  | some ci =>
      let nxt := ci + 1
      if nxt < (st.tracks.length : Int) then
        play_index (setCurrentRow st nxt) nxt
      else
        { st with
          playbackState := PlaybackState.StoppedState
          position := 0
          current_index := none }

/-- `Mp3Player.play_prev`: no-op when `current_index` is `None`; otherwise
select and play `max(0, current_index - 1)`. -/
def play_prev (st : PlayerState) : PlayerState :=
  match st.current_index with
  | none => st
  | some ci =>
      let prev := max 0 (ci - 1)
      play_index (setCurrentRow st prev) prev

/-- `Mp3Player.play_selected`: take the widget's current row, defaulting
to 0 for a non-empty registry; report "Плейлист пуст" when there is still
no row; resume in place when the selected row is the bound, paused track;
otherwise `_play_index(row)`. -/
def play_selected (st : PlayerState) : PlayerState :=
  let row0 := st.playlistRow
  let row := if row0 < 0 ∧ st.tracks ≠ [] then 0 else row0
  let st1 := if row0 < 0 ∧ st.tracks ≠ [] then setCurrentRow st 0 else st
  if row < 0 then { st1 with statusMsg := some "Плейлист пуст" }
  else if st1.current_index = some row ∧ st1.playbackState = PlaybackState.PausedState then
    { st1 with playbackState := PlaybackState.PlayingState }
  else play_index st1 row

/-- `Mp3Player.toggle_pause`: Playing → pause and relabel the button "▶";
Paused → play and relabel "Pause"; otherwise `play_selected()` and
relabel "Pause". -/
def toggle_pause (st : PlayerState) : PlayerState :=
  match st.playbackState with
  | PlaybackState.PlayingState =>
      { st with playbackState := PlaybackState.PausedState, btnPauseText := "▶" }
  | PlaybackState.PausedState =>
      { st with playbackState := PlaybackState.PlayingState, btnPauseText := "Pause" }
  | PlaybackState.StoppedState =>
      { play_selected st with btnPauseText := "Pause" }

/-- `QListWidget.takeItem(r)`: removes the item when `r` is in range,
otherwise does nothing. -/
def qtTakeRow (items : List String) (r : Int) : List String :=
  if 0 ≤ r ∧ r < (items.length : Int) then items.eraseIdx r.toNat else items

/-- `Mp3Player.remove_selected`: return when no row is selected; stop the
player and clear `current_index` when the selected row is the current
track; then `takeItem(sel)` (Qt moves the current row to the nearest
remaining row) and `del self.tracks[sel]` with `IndexError` caught. -/
def remove_selected (st : PlayerState) : PlayerState :=
  let sel := st.playlistRow
  if sel < 0 then st
  else
    let st1 :=
      if st.current_index = some sel then
        { st with
          playbackState := PlaybackState.StoppedState
          position := 0
          current_index := none }
      else st
    let newItems := qtTakeRow st1.playlistItems sel
    let newRow := if newItems.isEmpty then -1 else min sel ((newItems.length : Int) - 1)
    let newTracks :=
      if sel < (st1.tracks.length : Int) then st1.tracks.eraseIdx sel.toNat else st1.tracks
    { st1 with playlistItems := newItems, playlistRow := newRow, tracks := newTracks }

/-- `seek_slider.maximum()`: the slider range is set once to 0..1000. -/
def seek_slider_maximum : ℚ := 1000

/-- Python `int(x)` on a real value: truncation toward zero. -/
def pyIntOfRat (q : ℚ) : Int := if 0 ≤ q then ⌊q⌋ else ⌈q⌉

/-- `Mp3Player.on_seek_moved`: return when the service's duration is ≤ 0,
otherwise `setPosition(int(slider_value / maximum * duration))`. -/
def on_seek_moved (st : PlayerState) (slider_value : Int) : PlayerState :=
  if st.duration ≤ 0 then st
  else
    { st with
      position := pyIntOfRat ((slider_value : ℚ) / seek_slider_maximum * (st.duration : ℚ)) }

/-- Python `f"{n:02d}"` for a non-negative value. -/
def pad2 (n : Nat) : String := if n < 10 then "0" ++ toString n else toString n

/-- `Mp3Player._format_time` (static): `None` or `ms <= 0` renders
"00:00"; otherwise `seconds = int(ms / 1000)` (truncation; `ms > 0` so
this is integer division) then `m, s = divmod(seconds, 60)` rendered
`MM:SS` with `%02d` fields. -/
def format_time (ms : Option Int) : String :=
  match ms with
  | none => "00:00"
  | some v =>
      if v ≤ 0 then "00:00"
      else
        let seconds := v.toNat / 1000
        pad2 (seconds / 60) ++ ":" ++ pad2 (seconds % 60)

/-- The line list `[line.strip() for line in f.readlines() if line.strip()]`
shared by `__init__`'s session restore and `load_playlist`.  A file is
modelled as its list of lines (each `t.path` written by `save_playlist`
or `closeEvent` is one line; `readlines`'s trailing newlines are removed
by the `strip`). -/
def effective_lines (lines : List String) : List String :=
  (lines.map pyStrip).filter (fun l => l ≠ "")

/-- The track list produced from a playlist/session file's lines: each
surviving line whose path still exists on disk becomes
`Track.from_path(p)` appended in order. -/
def loaded_tracks (fileExists : String → Bool) (lines : List String) : List Track :=
  ((effective_lines lines).filter fileExists).map Track.from_path

/-- `Mp3Player.save_playlist` / the session-file write of `closeEvent`:
one line `t.path` per registry entry, written in order. -/
def save_playlist_lines (tracks : List Track) : List String :=
  tracks.map Track.path

/-- `Mp3Player.load_playlist`.  `path` is the dialog result (`""` means
cancelled); `readResult` is the outcome of `open(...).readlines()`:
`none` when reading raises, otherwise the file's lines.  Only after a
successful read are the registry and the widget cleared and repopulated
(clearing the `QListWidget` also leaves it with no current row). -/
def load_playlist (fileExists : String → Bool) (st : PlayerState) (path : String)
    (readResult : Option (List String)) : PlayerState :=
  if path = "" then st
  else
    match readResult with
    | none => { st with statusMsg := some "Ошибка загрузки плейлиста" }
    | some lines =>
        let ts := loaded_tracks fileExists lines
        { st with
          tracks := ts
          playlistItems := ts.map Track.title
          playlistRow := -1
          statusMsg := some "Плейлист загружен" }

/-- The session-restore block at the end of `Mp3Player.__init__`.
`sessionLines` is the content of `last_session.m3u` (`none` when the file
is missing or reading raised), `volumeArt` the parsed content of
`last_volume.txt` (`none` when missing or `float(...)` raised; Python's
`float(str(v))` round-trips exactly, so the scalar is carried as an exact
rational), `stateText` the raw content of `last_state.txt`, parsed by
`split("|")` and `int(...)` (the `except` makes any parse failure skip
the whole block). -/
def startup (fileExists : String → Bool) (sessionLines : Option (List String))
    (volumeArt : Option ℚ) (stateText : Option String) : PlayerState :=
  let st1 :=
    match sessionLines with
    | none => initState
    | some lines =>
        let ts := loaded_tracks fileExists lines
        { initState with tracks := ts, playlistItems := ts.map Track.title }
  let st2 :=
    match volumeArt with
    | none => st1
    | some v => { st1 with volume := v }
  match stateText with
  | none => st2
  | some txt =>
      match pySplit txt '|' with
      | [a, b] =>
          match pyInt a, pyInt b with
          | some idx, some pos =>
              if 0 ≤ idx ∧ idx < (st2.tracks.length : Int) then
                let st3 := setCurrentRow { st2 with current_index := some idx } idx
                let st4 := play_index st3 idx
                { st4 with position := pos, playbackState := PlaybackState.PausedState }
              else st2
          | _, _ => st2
      | _ => st2

/-- The `last_state.txt` content written by `closeEvent`:
`f"{idx}|{pos}"` with `idx = -1` when nothing is current. -/
def close_state_text (currentIndex : Option Int) (position : Int) : String :=
  let idx := match currentIndex with | none => (-1 : Int) | some i => i
  toString idx ++ "|" ++ toString position

/-! ### Helper lemmas -/

theorem pythonGet_nonneg {α : Type} (l : List α) (i : Int) (h : 0 ≤ i) :
    pythonGet l i = l[i.toNat]? := by
  unfold pythonGet
  rw [if_pos h]

theorem pythonGet_oob {α : Type} (l : List α) (i : Int)
    (h : (l.length : Int) ≤ i ∨ i + (l.length : Int) < 0) : pythonGet l i = none := by
  unfold pythonGet
  rcases h with h | h
  · have h0 : 0 ≤ i := le_trans (Int.ofNat_nonneg l.length) h
    rw [if_pos h0]
    exact List.getElem?_eq_none (by omega)
  · have h0 : ¬ (0 ≤ i) := by omega
    have h1 : ¬ (0 ≤ i + (l.length : Int)) := by omega
    rw [if_neg h0, if_neg h1]

theorem play_index_of_none (st : PlayerState) (i : Int)
    (h : pythonGet st.tracks i = none) : play_index st i = st := by
  unfold play_index
  rw [h]

theorem play_index_of_some (st : PlayerState) (i : Int) (t : Track)
    (h : pythonGet st.tracks i = some t) :
    play_index st i =
      { st with
        source := some t.path
        playbackState := PlaybackState.PlayingState
        current_index := some i
        miniLabel := t.title
        statusMsg := some ("Воспроизведение: " ++ t.title) } := by
  unfold play_index
  rw [h]

/-! ### C5 — time formatting -/

/-- C5: `_format_time` maps `None` and every non-positive millisecond value
to `"00:00"`, and every positive `ms` to `MM:SS` obtained by truncating to
whole seconds and splitting by 60, with the seconds field below 60 and the
minute field un-clamped (no hour component); in particular
0 → "00:00", 65000 → "01:05", 1999 → "00:01" (truncation, not rounding),
and 6000000 (100 minutes) → "100:00". -/
theorem C5_format_time :
    format_time none = "00:00" ∧
    (∀ v : Int, v ≤ 0 → format_time (some v) = "00:00") ∧
    (∀ v : Int, 0 < v →
      format_time (some v) =
        pad2 (v.toNat / 1000 / 60) ++ ":" ++ pad2 (v.toNat / 1000 % 60) ∧
      v.toNat / 1000 % 60 < 60) ∧
    format_time (some 0) = "00:00" ∧
    format_time (some 65000) = "01:05" ∧
    format_time (some 1999) = "00:01" ∧
    format_time (some 6000000) = "100:00" := by
  refine ⟨rfl, ?_, ?_, by decide, by decide, by decide, by decide⟩
  · intro v hv
    simp [format_time, hv]
  · intro v hv
    refine ⟨?_, Nat.mod_lt _ (by norm_num)⟩
    simp [format_time, show ¬ v ≤ 0 from not_le.2 hv]

/-- C5 witness: the theorem applied at -3 ms and at 65000 ms. -/
theorem C5_format_time_witness :
    format_time (some (-3)) = "00:00" ∧
    format_time (some 65000) =
      pad2 ((65000 : Int).toNat / 1000 / 60) ++ ":" ++ pad2 ((65000 : Int).toNat / 1000 % 60) :=
  ⟨C5_format_time.2.1 (-3) (by decide), (C5_format_time.2.2.1 65000 (by decide)).1⟩

/-! ### C6 — seek with unknown duration -/

/-- C6: while the service's duration is ≤ 0 (unknown), `on_seek_moved` is a
complete no-op — in particular the playback position is unchanged;
otherwise it issues the absolute position
`int(slider_value / slider_maximum * duration)` (the requested fraction of
the duration, truncated to an integer) and leaves the duration alone. -/
theorem C6_on_seek_moved :
    ∀ (st : PlayerState) (slider_value : Int),
      (st.duration ≤ 0 → on_seek_moved st slider_value = st) ∧
      (0 < st.duration →
        (on_seek_moved st slider_value).position =
          pyIntOfRat ((slider_value : ℚ) / seek_slider_maximum * (st.duration : ℚ)) ∧
        (on_seek_moved st slider_value).duration = st.duration ∧
        (on_seek_moved st slider_value).tracks = st.tracks ∧
        (on_seek_moved st slider_value).playbackState = st.playbackState) := by
  intro st sv
  constructor
  · intro h
    simp [on_seek_moved, h]
  · intro h
    simp [on_seek_moved, show ¬ st.duration ≤ 0 from not_le.2 h]

/-- C6 witness: with duration -1 a seek request changes nothing; with
duration 10000 a mid-slider request (500 of 1000) issues position 5000. -/
theorem C6_on_seek_moved_witness :
    on_seek_moved { initState with duration := -1, position := 42 } 500 =
      { initState with duration := -1, position := 42 } ∧
    (on_seek_moved { initState with duration := 10000 } 500).position =
      pyIntOfRat ((500 : ℚ) / seek_slider_maximum *
        (({ initState with duration := 10000 } : PlayerState).duration : ℚ)) ∧
    pyIntOfRat ((500 : ℚ) / seek_slider_maximum *
        (({ initState with duration := 10000 } : PlayerState).duration : ℚ)) = 5000 := by
  refine ⟨(C6_on_seek_moved _ 500).1 (by decide),
         ((C6_on_seek_moved _ 500).2 (by decide)).1, ?_⟩
  show pyIntOfRat ((500 : ℚ) / seek_slider_maximum * ((10000 : Int) : ℚ)) = 5000
  simp only [pyIntOfRat, seek_slider_maximum]
  norm_num

/-! ### C7 — loadAndPlay on invalid indices -/

/-- C7 amended: `_play_index(index)` is a complete silent no-op exactly when
`index` is out of range for Python list indexing, i.e. when
`index ≥ len(tracks)` or `index < -len(tracks)`; for a non-negative valid
index it binds the track's path as the source, starts playback and sets
`current_index = index`.  (A negative index in `[-len, -1]` is NOT a no-op:
Python indexes from the back — see the counterexample.) -/
theorem C7_play_index :
    ∀ (st : PlayerState) (i : Int),
      ((st.tracks.length : Int) ≤ i ∨ i + (st.tracks.length : Int) < 0 →
        play_index st i = st) ∧
      (∀ t : Track, 0 ≤ i → st.tracks[i.toNat]? = some t →
        play_index st i =
          { st with
            source := some t.path
            playbackState := PlaybackState.PlayingState
            current_index := some i
            miniLabel := t.title
            statusMsg := some ("Воспроизведение: " ++ t.title) }) := by
  intro st i
  constructor
  · intro h
    exact play_index_of_none st i (pythonGet_oob st.tracks i h)
  · intro t h0 ht
    refine play_index_of_some st i t ?_
    rw [pythonGet_nonneg st.tracks i h0]
    exact ht

/-- C7 counterexample state: a one-track registry. -/
def stC7 : PlayerState :=
  { initState with tracks := [Track.from_path "/a.mp3"], playlistItems := ["a"] }

/-- C7 counterexample: index -1 is not a valid registry index (not in
[0, 1)), yet `_play_index(-1)` is not a no-op — Python's negative indexing
binds the last track, starts playback, and sets `current_index = -1`. -/
theorem C7_play_index_counterexample :
    ¬ (0 ≤ (-1 : Int) ∧ (-1 : Int) < (stC7.tracks.length : Int)) ∧
    (play_index stC7 (-1)).playbackState = PlaybackState.PlayingState ∧
    (play_index stC7 (-1)).source = some "/a.mp3" ∧
    (play_index stC7 (-1)).current_index = some (-1) := by
  refine ⟨by decide, by decide, by decide, by decide⟩

/-- C7 witness: for the one-track registry, index 5 is ≥ the length and the
call is a no-op, while index 0 is valid and binds, plays and selects it. -/
theorem C7_play_index_witness :
    play_index stC7 5 = stC7 ∧
    play_index stC7 0 =
      { stC7 with
        source := some (Track.from_path "/a.mp3").path
        playbackState := PlaybackState.PlayingState
        current_index := some 0
        miniLabel := (Track.from_path "/a.mp3").title
        statusMsg := some ("Воспроизведение: " ++ (Track.from_path "/a.mp3").title) } :=
  ⟨(C7_play_index stC7 5).1 (by decide),
   (C7_play_index stC7 0).2 (Track.from_path "/a.mp3") (by decide) (by decide)⟩

/-! ### C9 — playlist load is atomic on read failure -/

/-- C9: when the user picked a file (non-empty dialog path) but reading it
raises, `load_playlist` leaves the whole state unchanged except for the
transient "Ошибка загрузки плейлиста" status message — in particular the
track registry, the playlist widget's items and its selected row are
untouched, and no exception propagates (the function is total). -/
theorem C9_load_playlist_error :
    ∀ (fileExists : String → Bool) (st : PlayerState) (path : String),
      path ≠ "" →
      load_playlist fileExists st path none =
        { st with statusMsg := some "Ошибка загрузки плейлиста" } ∧
      (load_playlist fileExists st path none).tracks = st.tracks ∧
      (load_playlist fileExists st path none).playlistItems = st.playlistItems ∧
      (load_playlist fileExists st path none).playlistRow = st.playlistRow ∧
      (load_playlist fileExists st path none).current_index = st.current_index ∧
      (load_playlist fileExists st path none).playbackState = st.playbackState := by
  intro E st p hp
  have h : load_playlist E st p none =
      { st with statusMsg := some "Ошибка загрузки плейлиста" } := by
    simp [load_playlist, hp]
  exact ⟨h, by rw [h], by rw [h], by rw [h], by rw [h], by rw [h]⟩

/-- C9 witness state: a two-track registry, second track playing. -/
def stC9 : PlayerState :=
  { initState with
    tracks := [Track.from_path "/a.mp3", Track.from_path "/b.mp3"]
    playlistItems := ["a", "b"]
    playlistRow := 1
    current_index := some 1
    source := some "/b.mp3"
    playbackState := PlaybackState.PlayingState }

/-- C9 witness: the theorem applied to a concrete playing state and path. -/
theorem C9_load_playlist_error_witness :
    load_playlist (fun _ => true) stC9 "/home/user/p.m3u" none =
      { stC9 with statusMsg := some "Ошибка загрузки плейлиста" } ∧
    (load_playlist (fun _ => true) stC9 "/home/user/p.m3u" none).tracks = stC9.tracks :=
  ⟨(C9_load_playlist_error (fun _ => true) stC9 "/home/user/p.m3u" (by decide)).1,
   (C9_load_playlist_error (fun _ => true) stC9 "/home/user/p.m3u" (by decide)).2.1⟩

/-! ### C1 — next() -/

/-- C1: `play_next` with `current_index` absent changes nothing; with
`current_index = ci` present and `ci + 1` a valid registry index it loads
and plays the track at `ci + 1` and sets `current_index` to it; with
`current_index` the last index it stops playback and clears
`current_index`, after which a second `play_next` is a no-op (no wraparound
to index 0). -/
theorem C1_play_next :
    ∀ st : PlayerState,
      (st.current_index = none → play_next st = st) ∧
      (∀ (ci : Int) (t : Track), st.current_index = some ci → 0 ≤ ci + 1 →
        st.tracks[(ci + 1).toNat]? = some t →
        (play_next st).source = some t.path ∧
        (play_next st).playbackState = PlaybackState.PlayingState ∧
        (play_next st).current_index = some (ci + 1)) ∧
      (∀ ci : Int, st.current_index = some ci →
        ci = (st.tracks.length : Int) - 1 → st.tracks ≠ [] →
        (play_next st).playbackState = PlaybackState.StoppedState ∧
        (play_next st).current_index = none ∧
        play_next (play_next st) = play_next st) := by
  intro st
  refine ⟨?_, ?_, ?_⟩
  · intro h
    simp [play_next, h]
  · intro ci t hci hpos ht
    have hlt : (ci + 1).toNat < st.tracks.length := (List.getElem?_eq_some.1 ht).1
    have hlt2 : ci + 1 < (st.tracks.length : Int) := by omega
    have hget : pythonGet (setCurrentRow st (ci + 1)).tracks (ci + 1) = some t := by
      rw [pythonGet_nonneg _ _ hpos]
      exact ht
    simp only [play_next, hci, if_pos hlt2]
    rw [play_index_of_some _ _ t hget]
    exact ⟨rfl, rfl, rfl⟩
  · intro ci hci hlast hne
    have hlen : 0 < st.tracks.length := List.length_pos.2 hne
    have hnlt : ¬ (ci + 1 < (st.tracks.length : Int)) := by omega
    have hE : play_next st =
        { st with
          playbackState := PlaybackState.StoppedState
          position := 0
          current_index := none } := by
      simp only [play_next, hci, if_neg hnlt]
    refine ⟨by rw [hE], by rw [hE], ?_⟩
    rw [hE]
    simp [play_next]

/-- C1 witness state: two tracks, first one current and playing. -/
def stC1 : PlayerState :=
  { initState with
    tracks := [Track.from_path "/a.mp3", Track.from_path "/b.mp3"]
    playlistItems := ["a", "b"]
    playlistRow := 0
    current_index := some 0
    source := some "/a.mp3"
    playbackState := PlaybackState.PlayingState }

/-- C1 witness state: the last track current. -/
def stC1b : PlayerState :=
  { stC1 with playlistRow := 1, current_index := some 1, source := some "/b.mp3" }

/-- C1 witness: the theorem applied to a no-current state, to a state with a
valid successor, and to a state at the last index. -/
theorem C1_play_next_witness :
    play_next initState = initState ∧
    ((play_next stC1).source = some (Track.from_path "/b.mp3").path ∧
      (play_next stC1).playbackState = PlaybackState.PlayingState ∧
      (play_next stC1).current_index = some (0 + 1)) ∧
    ((play_next stC1b).playbackState = PlaybackState.StoppedState ∧
      (play_next stC1b).current_index = none ∧
      play_next (play_next stC1b) = play_next stC1b) :=
  ⟨(C1_play_next initState).1 (by decide),
   (C1_play_next stC1).2.1 0 (Track.from_path "/b.mp3") (by decide) (by decide) (by decide),
   (C1_play_next stC1b).2.2 1 (by decide) (by decide) (by decide)⟩

/-! ### C2 — previous() -/

/-- C2 amended: `play_prev` with `current_index` absent changes nothing;
with `current_index = ci` present and `max(0, ci - 1)` a valid registry
index it loads and plays the track there; with `current_index` present but
stale so that `max(0, ci - 1)` is at or beyond the registry length
(reachable after removals) the registry, current index, source, playback
state and position are unchanged (only the widget's selected row is
cleared); from `current_index = 0` the current index stays 0 (no
wraparound, no negative index, and the function is total so no
exception). -/
theorem C2_play_prev :
    ∀ st : PlayerState,
      (st.current_index = none → play_prev st = st) ∧
      (∀ (ci : Int) (t : Track), st.current_index = some ci →
        st.tracks[(max 0 (ci - 1)).toNat]? = some t →
        (play_prev st).source = some t.path ∧
        (play_prev st).playbackState = PlaybackState.PlayingState ∧
        (play_prev st).current_index = some (max 0 (ci - 1))) ∧
      (∀ ci : Int, st.current_index = some ci →
        (st.tracks.length : Int) ≤ max 0 (ci - 1) →
        (play_prev st).tracks = st.tracks ∧
        (play_prev st).current_index = st.current_index ∧
        (play_prev st).source = st.source ∧
        (play_prev st).playbackState = st.playbackState ∧
        (play_prev st).position = st.position) ∧
      (st.current_index = some 0 → (play_prev st).current_index = some 0) := by
  intro st
  have hmax : ∀ ci : Int, 0 ≤ max 0 (ci - 1) := fun ci => le_max_left 0 (ci - 1)
  refine ⟨?_, ?_, ?_, ?_⟩
  · intro h
    simp [play_prev, h]
  · intro ci t hci ht
    have hget : pythonGet (setCurrentRow st (max 0 (ci - 1))).tracks (max 0 (ci - 1)) = some t := by
      rw [pythonGet_nonneg _ _ (hmax ci)]
      exact ht
    simp only [play_prev, hci]
    rw [play_index_of_some _ _ t hget]
    exact ⟨rfl, rfl, rfl⟩
  · intro ci hci hoob
    have hget : pythonGet (setCurrentRow st (max 0 (ci - 1))).tracks (max 0 (ci - 1)) = none :=
      pythonGet_oob _ _ (Or.inl hoob)
    simp only [play_prev, hci]
    rw [play_index_of_none _ _ hget]
    exact ⟨rfl, hci, rfl, rfl, rfl⟩
  · intro hci
    simp only [play_prev, hci]
    show (play_index (setCurrentRow st (max 0 (0 - 1))) (max 0 (0 - 1))).current_index = some 0
    have hm : max 0 ((0 : Int) - 1) = 0 := by decide
    rw [hm]
    cases hg : pythonGet (setCurrentRow st (0 : Int)).tracks 0 with
    | none => rw [play_index_of_none _ _ hg]; exact hci
    | some t => rw [play_index_of_some _ _ t hg]

/-- C2 counterexample state: one track left in the registry but a stale
`current_index = 2` (reachable by playing index 2 of a three-track list
and then removing two earlier rows). -/
def stC2 : PlayerState :=
  { initState with
    tracks := [Track.from_path "/c.mp3"]
    playlistItems := ["c"]
    playlistRow := 0
    current_index := some 2
    playbackState := PlaybackState.StoppedState }

/-- C2 counterexample: `current_index` is present (= 2), so the claim says
`play_prev` loads and plays the track at index `max(0, 2 - 1) = 1` — but
there is no track at index 1, and the call neither starts playback nor
moves `current_index` there. -/
theorem C2_play_prev_counterexample :
    stC2.current_index = some 2 ∧
    (play_prev stC2).playbackState ≠ PlaybackState.PlayingState ∧
    (play_prev stC2).current_index ≠ some (max 0 (2 - 1)) ∧
    (play_prev stC2).source = stC2.source :=
  ⟨by decide, by decide, by decide, by decide⟩

/-- C2 witness state: two tracks with the second current and playing. -/
def stC2w : PlayerState :=
  { initState with
    tracks := [Track.from_path "/a.mp3", Track.from_path "/b.mp3"]
    playlistItems := ["a", "b"]
    playlistRow := 1
    current_index := some 1
    source := some "/b.mp3"
    playbackState := PlaybackState.PlayingState }

/-- C2 witness state: first track current (index 0). -/
def stC2w0 : PlayerState :=
  { stC2w with playlistRow := 0, current_index := some 0, source := some "/a.mp3" }

/-- C2 witness: the theorem applied at a valid previous index, at the stale
state of the counterexample, and at index 0 (stays at 0). -/
theorem C2_play_prev_witness :
    ((play_prev stC2w).source = some (Track.from_path "/a.mp3").path ∧
      (play_prev stC2w).playbackState = PlaybackState.PlayingState ∧
      (play_prev stC2w).current_index = some (max 0 (1 - 1))) ∧
    (play_prev stC2).current_index = stC2.current_index ∧
    (play_prev stC2w0).current_index = some 0 :=
  ⟨(C2_play_prev stC2w).2.1 1 (Track.from_path "/a.mp3") (by decide) (by decide),
   ((C2_play_prev stC2).2.2.1 2 (by decide) (by decide)).2.1,
   (C2_play_prev stC2w0).2.2.2 (by decide)⟩

/-! ### C3 — togglePause() -/

theorem play_selected_stopped (st : PlayerState)
    (hs : st.playbackState = PlaybackState.StoppedState) (hne : st.tracks ≠ [])
    (hrow : st.playlistRow < (st.tracks.length : Int)) :
    (play_selected st).playbackState = PlaybackState.PlayingState := by
  by_cases hneg : st.playlistRow < 0
  · have hc : st.playlistRow < 0 ∧ st.tracks ≠ [] := ⟨hneg, hne⟩
    have hpaused : ¬ ((setCurrentRow st 0).current_index = some (0 : Int) ∧
        (setCurrentRow st 0).playbackState = PlaybackState.PausedState) := by
      intro hx
      have h2 : st.playbackState = PlaybackState.PausedState := hx.2
      rw [hs] at h2
      exact PlaybackState.noConfusion h2
    have hE : play_selected st = play_index (setCurrentRow st 0) 0 := by
      simp only [play_selected, if_pos hc]
      rw [if_neg (by omega : ¬ ((0 : Int) < 0)), if_neg hpaused]
    rw [hE]
    obtain ⟨t, ht⟩ : ∃ t, st.tracks[(0 : Int).toNat]? = some t := by
      cases h : st.tracks with
      | nil => exact absurd h hne
      | cons a l => exact ⟨a, by simp [h]⟩
    have hget : pythonGet (setCurrentRow st 0).tracks 0 = some t := by
      rw [pythonGet_nonneg _ _ (by omega : (0 : Int) ≤ 0)]
      exact ht
    rw [play_index_of_some _ _ t hget]
  · have hc : ¬ (st.playlistRow < 0 ∧ st.tracks ≠ []) := fun hx => hneg hx.1
    have hpaused : ¬ (st.current_index = some st.playlistRow ∧
        st.playbackState = PlaybackState.PausedState) := by
      intro hx
      have h2 := hx.2
      rw [hs] at h2
      exact PlaybackState.noConfusion h2
    have hE : play_selected st = play_index st st.playlistRow := by
      simp only [play_selected, if_neg hc]
      rw [if_neg hneg, if_neg hpaused]
    rw [hE]
    have h0 : 0 ≤ st.playlistRow := by omega
    obtain ⟨t, ht⟩ : ∃ t, st.tracks[st.playlistRow.toNat]? = some t := by
      have hlt : st.playlistRow.toNat < st.tracks.length := by omega
      exact ⟨st.tracks[st.playlistRow.toNat], List.getElem?_eq_getElem hlt⟩
    have hget : pythonGet st.tracks st.playlistRow = some t := by
      rw [pythonGet_nonneg _ _ h0]
      exact ht
    rw [play_index_of_some _ _ t hget]

/-- C3: `toggle_pause` implements the claimed state machine: from Playing
it pauses and relabels the pause button "▶" (resume glyph); from Paused it
resumes and relabels "Pause"; from Stopped (which also covers no source)
it behaves exactly as `play_selected` (the playOrResume operation) and
labels "Pause".  Consequently — under the registry/widget lockstep
invariant `playlistRow < len(tracks)` — with a non-empty registry two
consecutive calls from Stopped give Playing then Paused, and from Playing
give Paused then Playing. -/
theorem C3_toggle_pause :
    ∀ st : PlayerState,
      (st.playbackState = PlaybackState.PlayingState →
        toggle_pause st =
          { st with playbackState := PlaybackState.PausedState, btnPauseText := "▶" }) ∧
      (st.playbackState = PlaybackState.PausedState →
        toggle_pause st =
          { st with playbackState := PlaybackState.PlayingState, btnPauseText := "Pause" }) ∧
      (st.playbackState = PlaybackState.StoppedState →
        toggle_pause st = { play_selected st with btnPauseText := "Pause" }) ∧
      (st.playbackState = PlaybackState.StoppedState → st.tracks ≠ [] →
        st.playlistRow < (st.tracks.length : Int) →
        (toggle_pause st).playbackState = PlaybackState.PlayingState ∧
        (toggle_pause (toggle_pause st)).playbackState = PlaybackState.PausedState) ∧
      (st.playbackState = PlaybackState.PlayingState →
        (toggle_pause st).playbackState = PlaybackState.PausedState ∧
        (toggle_pause (toggle_pause st)).playbackState = PlaybackState.PlayingState) := by
  intro st
  refine ⟨?_, ?_, ?_, ?_, ?_⟩
  · intro h
    simp [toggle_pause, h]
  · intro h
    simp [toggle_pause, h]
  · intro h
    simp [toggle_pause, h]
  · intro h hne hrow
    have h1 : toggle_pause st = { play_selected st with btnPauseText := "Pause" } := by
      simp [toggle_pause, h]
    have hplay : (toggle_pause st).playbackState = PlaybackState.PlayingState := by
      rw [h1]
      exact play_selected_stopped st h hne hrow
    refine ⟨hplay, ?_⟩
    generalize toggle_pause st = u at hplay ⊢
    simp [toggle_pause, hplay]
  · intro h
    have h1 : toggle_pause st =
        { st with playbackState := PlaybackState.PausedState, btnPauseText := "▶" } := by
      simp [toggle_pause, h]
    have h1p : (toggle_pause st).playbackState = PlaybackState.PausedState := by rw [h1]
    refine ⟨h1p, ?_⟩
    generalize toggle_pause st = u at h1p ⊢
    simp [toggle_pause, h1p]

/-- C3 witness state: two tracks, stopped, no row selected. -/
def stC3 : PlayerState :=
  { initState with
    tracks := [Track.from_path "/a.mp3", Track.from_path "/b.mp3"]
    playlistItems := ["a", "b"] }

/-- C3 witness state: first track playing. -/
def stC3p : PlayerState :=
  { stC3 with
    playlistRow := 0
    current_index := some 0
    source := some "/a.mp3"
    playbackState := PlaybackState.PlayingState }

/-- C3 witness: the theorem applied from Stopped (two calls give Playing
then Paused) and from Playing (label flips to "▶", then two calls give
Paused then Playing). -/
theorem C3_toggle_pause_witness :
    ((toggle_pause stC3).playbackState = PlaybackState.PlayingState ∧
      (toggle_pause (toggle_pause stC3)).playbackState = PlaybackState.PausedState) ∧
    toggle_pause stC3p =
      { stC3p with playbackState := PlaybackState.PausedState, btnPauseText := "▶" } ∧
    ((toggle_pause stC3p).playbackState = PlaybackState.PausedState ∧
      (toggle_pause (toggle_pause stC3p)).playbackState = PlaybackState.PlayingState) :=
  ⟨(C3_toggle_pause stC3).2.2.2.1 (by decide) (by decide) (by decide),
   (C3_toggle_pause stC3p).1 (by decide),
   (C3_toggle_pause stC3p).2.2.2.2 (by decide)⟩

/-! ### C10 — removing the selected entry -/

/-- C10: `remove_selected` with the selected row equal to `current_index`
stops the media service and clears `current_index`, and the entry is
deleted from the registry; with the selected row any other valid row the
numeric `current_index` is unchanged — and when the removed row precedes
it, the unchanged index afterwards denotes the track that followed the
playing one (`new_tracks[c] = old_tracks[c + 1]`). -/
theorem C10_remove_selected :
    ∀ (st : PlayerState) (r : Int), st.playlistRow = r → 0 ≤ r →
      (st.current_index = some r → r < (st.tracks.length : Int) →
        (remove_selected st).playbackState = PlaybackState.StoppedState ∧
        (remove_selected st).current_index = none ∧
        (remove_selected st).tracks = st.tracks.eraseIdx r.toNat) ∧
      (r < (st.tracks.length : Int) → st.current_index ≠ some r →
        (remove_selected st).current_index = st.current_index) ∧
      (∀ c : Int, st.current_index = some c → r < c → r < (st.tracks.length : Int) →
        (remove_selected st).current_index = some c ∧
        (remove_selected st).tracks[c.toNat]? = st.tracks[c.toNat + 1]?) := by
  intro st r hrow h0
  have hnneg : ¬ (r < 0) := by omega
  refine ⟨?_, ?_, ?_⟩
  · intro hcur hlt
    unfold remove_selected
    rw [hrow, if_neg hnneg, if_pos hcur]
    refine ⟨rfl, rfl, ?_⟩
    show (if r < ((st.tracks.length : Int)) then st.tracks.eraseIdx r.toNat else st.tracks) =
      st.tracks.eraseIdx r.toNat
    rw [if_pos hlt]
  · intro hlt hne
    unfold remove_selected
    rw [hrow, if_neg hnneg, if_neg hne]
  · intro c hcur hrc hlt
    have hne : st.current_index ≠ some r := by
      rw [hcur]
      intro hc
      have : c = r := Option.some.inj hc
      omega
    unfold remove_selected
    rw [hrow, if_neg hnneg, if_neg hne]
    refine ⟨hcur, ?_⟩
    show (if r < ((st.tracks.length : Int)) then st.tracks.eraseIdx r.toNat
        else st.tracks)[c.toNat]? = st.tracks[c.toNat + 1]?
    rw [if_pos hlt, List.getElem?_eraseIdx]
    have : ¬ (c.toNat < r.toNat) := by omega
    rw [if_neg this]

/-- C10 witness state: three tracks, playing row selected (row 1 =
current index 1). -/
def stC10a : PlayerState :=
  { initState with
    tracks := [Track.from_path "/a.mp3", Track.from_path "/b.mp3", Track.from_path "/c.mp3"]
    playlistItems := ["a", "b", "c"]
    playlistRow := 1
    current_index := some 1
    source := some "/b.mp3"
    playbackState := PlaybackState.PlayingState }

/-- C10 witness state: same registry with row 0 selected while index 2 is
playing. -/
def stC10b : PlayerState :=
  { stC10a with playlistRow := 0, current_index := some 2, source := some "/c.mp3" }

/-- C10 witness: removing the playing row stops and clears; removing an
earlier row keeps `current_index = 2`, which then denotes the track that
followed the playing one. -/
theorem C10_remove_selected_witness :
    ((remove_selected stC10a).playbackState = PlaybackState.StoppedState ∧
      (remove_selected stC10a).current_index = none ∧
      (remove_selected stC10a).tracks = stC10a.tracks.eraseIdx (1 : Int).toNat) ∧
    ((remove_selected stC10b).current_index = some 2 ∧
      (remove_selected stC10b).tracks[(2 : Int).toNat]? = stC10b.tracks[(2 : Int).toNat + 1]?) :=
  ⟨(C10_remove_selected stC10a 1 (by decide) (by decide)).1 (by decide) (by decide),
   (C10_remove_selected stC10b 0 (by decide) (by decide)).2.2 2 (by decide) (by decide) (by decide)⟩

/-! ### C8 — playlist save/load round trip -/

theorem loaded_tracks_append (E : String → Bool) (la lb : List String) :
    loaded_tracks E (la ++ lb) = loaded_tracks E la ++ loaded_tracks E lb := by
  simp [loaded_tracks, effective_lines, List.filter_append]

theorem loaded_save_of_wf (E : String → Bool) :
    ∀ ts : List Track,
      (∀ t ∈ ts, E t.path = true ∧ pyStrip t.path = t.path ∧ t.path ≠ "" ∧
        t.title = pathStem t.path) →
      loaded_tracks E (save_playlist_lines ts) = ts := by
  intro ts H
  induction ts with
  | nil => rfl
  | cons t ts ih =>
      obtain ⟨h1, h2, h3, h4⟩ := H t (List.mem_cons_self t ts)
      have ihts := ih (fun x hx => H x (List.mem_cons_of_mem _ hx))
      have hfp : Track.from_path t.path = t := by
        simp [Track.from_path, ← h4]
      simp only [loaded_tracks, effective_lines, save_playlist_lines, List.map_cons] at ihts ⊢
      simp [List.filter_cons, h2, h3, h1, hfp] at ihts ⊢
      exact ihts

/-- C8 amended: for a registry whose paths all still exist, are non-empty
and are unchanged by `strip()` (no surrounding whitespace — the save/load
cycle strips each line), and whose titles are the stems of their paths (as
every track constructed by this program), saving then loading reproduces
exactly the same tracks in the same order; and a saved path that no longer
exists at load time is excluded from the loaded list without shifting the
entries before it. -/
theorem C8_round_trip (E : String → Bool) :
    (∀ ts : List Track,
      (∀ t ∈ ts, E t.path = true ∧ pyStrip t.path = t.path ∧ t.path ≠ "" ∧
        t.title = pathStem t.path) →
      loaded_tracks E (save_playlist_lines ts) = ts) ∧
    (∀ (l1 : List Track) (tb : Track) (l2 : List Track),
      (∀ t ∈ l1, E t.path = true ∧ pyStrip t.path = t.path ∧ t.path ≠ "" ∧
        t.title = pathStem t.path) →
      E tb.path = false → pyStrip tb.path = tb.path → tb.path ≠ "" →
      loaded_tracks E (save_playlist_lines (l1 ++ tb :: l2)) =
        l1 ++ loaded_tracks E (save_playlist_lines l2)) := by
  refine ⟨loaded_save_of_wf E, ?_⟩
  intro l1 tb l2 H1 hbE hbS hbne
  have hsplit : save_playlist_lines (l1 ++ tb :: l2) =
      save_playlist_lines l1 ++ save_playlist_lines (tb :: l2) := by
    simp [save_playlist_lines]
  rw [hsplit, loaded_tracks_append, loaded_save_of_wf E l1 H1]
  have hdrop : loaded_tracks E (save_playlist_lines (tb :: l2)) =
      loaded_tracks E (save_playlist_lines l2) := by
    simp [loaded_tracks, effective_lines, save_playlist_lines, List.filter_cons,
      hbS, hbne, hbE]
  rw [hdrop]

/-- C8 counterexample existence check: both the original path (with a
trailing space) and its stripped form exist on disk. -/
def fileExistsC8 : String → Bool :=
  fun p => p == "/a.mp3 " || p == "/a.mp3"

/-- C8 counterexample: a registry entry whose path carries a trailing
space and still exists is NOT reproduced by the save/load cycle — `strip`
turns the saved line `"/a.mp3 "` into `"/a.mp3"`, so the loaded registry
holds a different track (different path), refuting the claim that N
still-existing tracks round-trip to exactly the same N tracks. -/
theorem C8_round_trip_counterexample :
    (∀ t ∈ [Track.from_path "/a.mp3 "], fileExistsC8 t.path = true) ∧
    loaded_tracks fileExistsC8 (save_playlist_lines [Track.from_path "/a.mp3 "]) ≠
      [Track.from_path "/a.mp3 "] ∧
    loaded_tracks fileExistsC8 (save_playlist_lines [Track.from_path "/a.mp3 "]) =
      [Track.from_path "/a.mp3"] :=
  ⟨by decide, by decide, by decide⟩

/-- C8 witness registry: two well-formed existing tracks, plus a dropped
middle track for the no-shift part. -/
def tsC8 : List Track := [Track.from_path "/m/a.mp3", Track.from_path "/m/b.mp3"]

/-- C8 witness existence check: everything except the deleted `/m/gone.mp3`. -/
def fileExistsC8w : String → Bool := fun p => !(p == "/m/gone.mp3")

/-- C8 witness: the round trip reproduces the two-track registry, and with
a no-longer-existing track inserted in the middle the loaded list is the
first track unshifted followed by the load of the rest. -/
theorem C8_round_trip_witness :
    loaded_tracks fileExistsC8w (save_playlist_lines tsC8) = tsC8 ∧
    loaded_tracks fileExistsC8w
        (save_playlist_lines ([Track.from_path "/m/a.mp3"] ++
          Track.from_path "/m/gone.mp3" :: [Track.from_path "/m/b.mp3"])) =
      [Track.from_path "/m/a.mp3"] ++
        loaded_tracks fileExistsC8w (save_playlist_lines [Track.from_path "/m/b.mp3"]) :=
  ⟨(C8_round_trip fileExistsC8w).1 tsC8 (by decide),
   (C8_round_trip fileExistsC8w).2 [Track.from_path "/m/a.mp3"] (Track.from_path "/m/gone.mp3")
     [Track.from_path "/m/b.mp3"] (by decide) (by decide) (by decide) (by decide)⟩

/-! ### C4 — session restore -/

/-- C4 scenario existence check: the four saved tracks all still exist. -/
def fe4 : String → Bool :=
  fun p => ["/music/a.mp3", "/music/b.mp3", "/music/c.mp3", "/music/d.mp3"].contains p

/-- C4 scenario session file: four absolute paths, one per line. -/
def sessionLines4 : List String :=
  ["/music/a.mp3", "/music/b.mp3", "/music/c.mp3", "/music/d.mp3"]

/-- C4 scenario startup: volume 0.35 and the `last_state.txt` marker
written by `closeEvent` for index 2 at 12000 ms. -/
def restored4 : PlayerState :=
  startup fe4 (some sessionLines4) (some (mkRat 35 100)) (some (close_state_text (some 2) 12000))

/-- C4: whenever the persisted last-state marker splits on `"|"` into two
`int(...)`-parseable fields `idx|pos` with `idx` a valid index into the
restored track list, startup binds the track at `idx` as the media source,
sets the playback position to `pos`, and leaves the player Paused (not
auto-playing); concretely, a saved session of 4 existing tracks, volume
0.35, index 2, position 12000 restores the 4 tracks, volume 0.35, and a
bound-but-paused state at track 2, position 12000. -/
theorem C4_session_restore :
    (∀ (fileExists : String → Bool) (lines : List String) (volumeArt : Option ℚ)
        (txt a b : String) (idx pos : Int) (t : Track),
      pySplit txt '|' = [a, b] → pyInt a = some idx → pyInt b = some pos → 0 ≤ idx →
      (loaded_tracks fileExists lines)[idx.toNat]? = some t →
      (startup fileExists (some lines) volumeArt (some txt)).tracks =
        loaded_tracks fileExists lines ∧
      (startup fileExists (some lines) volumeArt (some txt)).source = some t.path ∧
      (startup fileExists (some lines) volumeArt (some txt)).position = pos ∧
      (startup fileExists (some lines) volumeArt (some txt)).playbackState =
        PlaybackState.PausedState ∧
      (startup fileExists (some lines) volumeArt (some txt)).current_index = some idx) ∧
    (restored4.tracks = sessionLines4.map Track.from_path ∧
      restored4.tracks.length = 4 ∧
      restored4.volume = mkRat 35 100 ∧
      restored4.current_index = some 2 ∧
      restored4.position = 12000 ∧
      restored4.playbackState = PlaybackState.PausedState ∧
      restored4.source = some "/music/c.mp3") := by
  constructor
  · intro E lines va txt a b idx pos t hsplit ha hb hidx ht
    have hlen : idx.toNat < (loaded_tracks E lines).length := (List.getElem?_eq_some.1 ht).1
    have hlt : idx < ((loaded_tracks E lines).length : Int) := by omega
    cases va with
    | none =>
        simp only [startup]
        simp only [hsplit]
        simp only [ha, hb]
        rw [if_pos (⟨hidx, hlt⟩ : 0 ≤ idx ∧ idx < ((loaded_tracks E lines).length : Int))]
        rw [play_index_of_some _ _ t (by rw [pythonGet_nonneg _ _ hidx]; exact ht)]
        exact ⟨rfl, rfl, rfl, rfl, rfl⟩
    | some v =>
        simp only [startup]
        simp only [hsplit]
        simp only [ha, hb]
        rw [if_pos (⟨hidx, hlt⟩ : 0 ≤ idx ∧ idx < ((loaded_tracks E lines).length : Int))]
        rw [play_index_of_some _ _ t (by rw [pythonGet_nonneg _ _ hidx]; exact ht)]
        exact ⟨rfl, rfl, rfl, rfl, rfl⟩
  · exact ⟨by decide, by decide, by decide, by decide, by decide, by decide, by decide⟩

/-- C4 witness: the general part applied at the concrete 4-track session
with marker "2|12000" and volume 0.35. -/
theorem C4_session_restore_witness :
    (startup fe4 (some sessionLines4) (some (mkRat 35 100)) (some "2|12000")).source =
      some (Track.from_path "/music/c.mp3").path ∧
    (startup fe4 (some sessionLines4) (some (mkRat 35 100)) (some "2|12000")).position = 12000 ∧
    (startup fe4 (some sessionLines4) (some (mkRat 35 100)) (some "2|12000")).playbackState =
      PlaybackState.PausedState :=
  have h := C4_session_restore.1 fe4 sessionLines4 (some (mkRat 35 100)) "2|12000" "2" "12000"
    2 12000 (Track.from_path "/music/c.mp3") (by decide) (by decide) (by decide) (by decide)
    (by decide)
  ⟨h.2.1, h.2.2.1, h.2.2.2.1⟩
